import Mathlib

/-!
Verification of the GCS object-storage driver and the object-storage options
layer: a shallow embedding of the Go source (the `gcs` driver package and
`storage/objects/options.go`), with theorems settling the specification
claims about error normalization, version parsing, listing limits, upload
preconditions, client caching, and option folding.

Modelling conventions:
  - Go errors are values of `GoError`, describing the attributes the driver
    inspects (`errors.Is(err, storage.ErrObjectNotExist)`, an attached
    `googleapi.Error` HTTP code found by `errors.As`, and an attached gRPC
    status); a `tag` field gives each error an identity so that a
    "returned unmodified" statement is expressible. A nullable Go `error` is
    `Option GoError` (`none` = nil).
  - machine integers (`int64`) are `Int` with explicit range bounds where
    they matter (`strconv.ParseInt` rejects out-of-range input).
  - the external cloud backend (the Google Cloud Storage SDK and service)
    is modelled only at its boundary, with each such definition documented.
-/

/-! ## gRPC status codes and HTTP codes used by the driver -/

def codeUnknown : Nat := 2

def codeAlreadyExists : Nat := 6

def codeFailedPrecondition : Nat := 9

def statusPreconditionFailed : Nat := 412

/-! ## Go error values as the driver observes them -/

/-- A backend Go error, described by the attributes `mapErr` inspects:
whether the error chain contains `storage.ErrObjectNotExist`
(`errors.Is`), the HTTP code of a `googleapi.Error` in the chain if any
(`errors.As`), the gRPC status code the error carries if it implements
`GRPCStatus()` (as consumed by `status.FromError`), and an identity tag so
distinct backend errors are distinct values. -/
structure GoError where
  isObjectNotExist : Bool
  googleapiCode : Option Nat
  grpcStatus : Option Nat
  tag : Nat
deriving DecidableEq

/-- Boundary model of `status.FromError` (external gRPC library): if the
error carries a gRPC status it is returned with ok = true; otherwise a
status with code `Unknown` is returned with ok = false. -/
def statusFromError (e : GoError) : Nat × Bool :=
  match e.grpcStatus with
  | some c => (c, true)
  | none => (codeUnknown, false)

/-- The driver-facing error taxonomy of `types`: the two well-known kinds,
plus pass-through of any other backend error unmodified. -/
inductive StorageError where
  | objectNotExist
  | preconditionFailed
  | native (e : GoError)
deriving DecidableEq

/-- `mapErr` (driver source, lines 203-226): nil maps to nil;
`storage.ErrObjectNotExist` maps to the object-not-exist kind; a
`googleapi.Error` with HTTP 412, or a gRPC status of AlreadyExists or
FailedPrecondition, maps to the precondition-failed kind; everything else
is returned unmodified. The gRPC condition keeps the Go operator
precedence of the source: `ok && code == AlreadyExists || code ==
FailedPrecondition` parses as `(ok && code == AlreadyExists) || code ==
FailedPrecondition`. -/
def mapErr : Option GoError → Option StorageError
  | none => none
  | some err =>
    if err.isObjectNotExist then
      some .objectNotExist
    else if err.googleapiCode = some statusPreconditionFailed then
      some .preconditionFailed
    else
      let s := statusFromError err
      if (s.2 && s.1 = codeAlreadyExists) || s.1 = codeFailedPrecondition then
        some .preconditionFailed
      else
        some (.native err)

/-- The claim's description of a backend precondition / already-exists
signal: HTTP 412 via `googleapi.Error`, or gRPC code AlreadyExists or
FailedPrecondition. -/
def isPreconditionSignal (e : GoError) : Prop :=
  e.googleapiCode = some statusPreconditionFailed ∨
    e.grpcStatus = some codeAlreadyExists ∨
    e.grpcStatus = some codeFailedPrecondition

instance (e : GoError) : Decidable (isPreconditionSignal e) := by
  unfold isPreconditionSignal
  infer_instance

/-- Claim C2: `mapErr` maps nil to nil, a backend object-not-exist
condition to ObjectNotExist, a precondition/already-exists signal (HTTP
412, gRPC AlreadyExists or FailedPrecondition) to PreconditionFailed, and
returns every other error unmodified. -/
theorem mapErr_normalizes (e : GoError) :
    mapErr none = none ∧
    (e.isObjectNotExist = true → mapErr (some e) = some .objectNotExist) ∧
    (e.isObjectNotExist = false → isPreconditionSignal e →
      mapErr (some e) = some .preconditionFailed) ∧
    (e.isObjectNotExist = false → ¬ isPreconditionSignal e →
      mapErr (some e) = some (.native e)) := by
  refine ⟨rfl, ?_, ?_, ?_⟩
  · intro h
    simp [mapErr, h]
  · intro h hsig
    rcases hsig with hg | hs | hs
    · simp [mapErr, h, hg]
    · simp only [mapErr, h, Bool.false_eq_true, if_false]
      by_cases hg : e.googleapiCode = some statusPreconditionFailed
      · simp [hg]
      · simp [hg, statusFromError, hs, codeAlreadyExists]
    · simp only [mapErr, h, Bool.false_eq_true, if_false]
      by_cases hg : e.googleapiCode = some statusPreconditionFailed
      · simp [hg]
      · simp [hg, statusFromError, hs, codeFailedPrecondition]
  · intro h hsig
    unfold isPreconditionSignal at hsig
    push_neg at hsig
    obtain ⟨hg, ha, hf⟩ := hsig
    simp only [mapErr, h, Bool.false_eq_true, if_false, hg]
    rcases hgs : e.grpcStatus with _ | c
    · simp [statusFromError, hgs, codeUnknown, codeFailedPrecondition]
    · rw [hgs] at ha hf
      simp only [statusFromError, hgs]
      have hca : c ≠ codeAlreadyExists := fun hc => ha (by rw [hc])
      have hcf : c ≠ codeFailedPrecondition := fun hc => hf (by rw [hc])
      simp [hca, hcf, hg]

/-- Concrete instances of claim C2: an object-not-exist error, an HTTP 412
error, a gRPC FailedPrecondition error, and an unrelated error (HTTP 404
with an unrecognized gRPC code) passed through unmodified. -/
theorem mapErr_normalizes_witness :
    mapErr (some ⟨true, none, none, 1⟩) = some .objectNotExist ∧
    mapErr (some ⟨false, some 412, none, 2⟩) = some .preconditionFailed ∧
    mapErr (some ⟨false, none, some 9, 3⟩) = some .preconditionFailed ∧
    mapErr (some ⟨false, some 404, some 13, 4⟩) =
      some (.native ⟨false, some 404, some 13, 4⟩) :=
  ⟨(mapErr_normalizes ⟨true, none, none, 1⟩).2.1 rfl,
   (mapErr_normalizes ⟨false, some 412, none, 2⟩).2.2.1 rfl (Or.inl rfl),
   (mapErr_normalizes ⟨false, none, some 9, 3⟩).2.2.1 rfl
     (Or.inr (Or.inr rfl)),
   (mapErr_normalizes ⟨false, some 404, some 13, 4⟩).2.2.2 rfl (by decide)⟩

/-! ## strconv.ParseInt / strconv.FormatInt (base 10, bitSize 64) -/

/-- Numeric value of an ASCII decimal digit character, as `strconv`
recognizes digits in base 10: none for any non-digit. -/
def digitVal (c : Char) : Option Nat :=
  if c.isDigit then some (c.toNat - 48) else none

/-- Accumulate the decimal value of a run of characters; fails on the
first non-digit. -/
def decDigitsAux (acc : Nat) : List Char → Option Nat
  | [] => some acc
  | c :: cs =>
    match digitVal c with
    | some d => decDigitsAux (acc * 10 + d) cs
    | none => none

def int64Min : Int := -(2 ^ 63)

def int64Max : Int := 2 ^ 63 - 1

/-- `strconv.ParseInt(s, 10, 64)`: an optional single leading sign
followed by one or more decimal digits, with the value required to fit in
a signed 64-bit integer; any other input (empty string, stray characters,
out-of-range value) yields an error, modelled as none. Go clamps the
returned value on a range error, but it also returns a non-nil error then,
and every caller in the driver discards the value when the error is
non-nil, so none is faithful. -/
def parseInt64 (s : String) : Option Int :=
  match s.data with
  | [] => none
  | c :: cs =>
    let signDigits : Bool × List Char :=
      if c = '-' then (true, cs)
      else if c = '+' then (false, cs)
      else (false, c :: cs)
    match signDigits.2 with
    | [] => none
    | d :: ds =>
      match decDigitsAux 0 (d :: ds) with
      | none => none
      | some n =>
        let v : Int := if signDigits.1 then -(n : Int) else (n : Int)
        if int64Min ≤ v ∧ v ≤ int64Max then some v else none

/-- ASCII character of a decimal digit. -/
def digitChar (d : Nat) : Char := Char.ofNat (48 + d)

/-- Little-endian decimal digits of a natural number, with explicit fuel
(the number itself suffices) so the definition is structural. -/
def natDigitsF : Nat → Nat → List Nat
  | 0, _ => []
  | _ + 1, 0 => []
  | f + 1, n + 1 => ((n + 1) % 10) :: natDigitsF f ((n + 1) / 10)

/-- Decimal digit characters of a natural number, most significant
first. -/
def formatNat (n : Nat) : List Char :=
  if n = 0 then ['0'] else ((natDigitsF n n).map digitChar).reverse

/-- `strconv.FormatInt(i, 10)`: minimal decimal representation with a
leading minus sign for negative values. -/
def formatInt (i : Int) : String :=
  if i < 0 then String.mk ('-' :: formatNat i.natAbs)
  else String.mk (formatNat i.toNat)

/-- Value of a little-endian digit list. -/
def digitsValLE : List Nat → Nat
  | [] => 0
  | d :: ds => d + 10 * digitsValLE ds

theorem digitVal_digitChar (d : Nat) (hd : d < 10) :
    digitVal (digitChar d) = some d := by
  interval_cases d <;> decide

theorem digitChar_ne_sign (d : Nat) (hd : d < 10) :
    digitChar d ≠ '-' ∧ digitChar d ≠ '+' := by
  interval_cases d <;> decide

theorem decDigitsAux_map (ds : List Nat) (hds : ∀ d ∈ ds, d < 10) :
    ∀ acc, decDigitsAux acc (ds.map digitChar) =
      some (ds.foldl (fun a d => a * 10 + d) acc) := by
  induction ds with
  | nil => intro acc; rfl
  | cons d ds ih =>
    intro acc
    have hd : d < 10 := hds d (List.mem_cons_self d ds)
    have hds2 : ∀ x ∈ ds, x < 10 := fun x hx => hds x (List.mem_cons_of_mem d hx)
    simp only [List.map_cons, decDigitsAux, digitVal_digitChar d hd]
    exact ih hds2 (acc * 10 + d)

theorem natDigitsF_lt_ten (f n : Nat) : ∀ d ∈ natDigitsF f n, d < 10 := by
  induction f generalizing n with
  | zero => intro d hd; simp [natDigitsF] at hd
  | succ f ih =>
    intro d hd
    cases n with
    | zero => simp [natDigitsF] at hd
    | succ m =>
      simp only [natDigitsF, List.mem_cons] at hd
      rcases hd with h | h
      · rw [h]; exact Nat.mod_lt _ (by omega)
      · exact ih _ d h

theorem digitsValLE_natDigitsF (f n : Nat) (h : n ≤ f) :
    digitsValLE (natDigitsF f n) = n := by
  induction f generalizing n with
  | zero =>
    have : n = 0 := Nat.le_zero.mp h
    rw [this]; rfl
  | succ f ih =>
    cases n with
    | zero => rfl
    | succ m =>
      have hdiv : (m + 1) / 10 ≤ f := by
        have h1 : (m + 1) / 10 < m + 1 := Nat.div_lt_self (Nat.succ_pos m) (by omega)
        omega
      simp only [natDigitsF, digitsValLE, ih _ hdiv]
      omega

theorem foldl_reverse_digitsValLE (ds : List Nat) :
    ds.reverse.foldl (fun a d => a * 10 + d) 0 = digitsValLE ds := by
  induction ds with
  | nil => rfl
  | cons d ds ih =>
    simp only [List.reverse_cons, List.foldl_append, List.foldl_cons,
      List.foldl_nil, ih, digitsValLE]
    omega

theorem decDigitsAux_formatNat (n : Nat) :
    decDigitsAux 0 (formatNat n) = some n := by
  by_cases h0 : n = 0
  · rw [h0]; rfl
  · have hmap : ((natDigitsF n n).map digitChar).reverse =
        ((natDigitsF n n).reverse).map digitChar := by
      rw [List.map_reverse]
    simp only [formatNat, h0, if_false, hmap]
    rw [decDigitsAux_map ((natDigitsF n n).reverse)
      (fun d hd => natDigitsF_lt_ten n n d (List.mem_reverse.mp hd))]
    rw [foldl_reverse_digitsValLE, digitsValLE_natDigitsF n n (Nat.le_refl n)]

theorem formatNat_ne_nil (n : Nat) : formatNat n ≠ [] := by
  by_cases h0 : n = 0
  · rw [h0]; decide
  · simp only [formatNat, h0, if_false]
    intro hcon
    rw [List.reverse_eq_nil_iff, List.map_eq_nil_iff] at hcon
    cases n with
    | zero => exact h0 rfl
    | succ m => simp [natDigitsF] at hcon

theorem formatNat_head_digit (n : Nat) :
    ∀ c cs, formatNat n = c :: cs → c ≠ '-' ∧ c ≠ '+' := by
  intro c cs heq
  have hmem : c ∈ formatNat n := by rw [heq]; exact List.mem_cons_self c cs
  by_cases h0 : n = 0
  · rw [h0] at hmem
    have : c = '0' := by simpa [formatNat] using hmem
    rw [this]; exact ⟨by decide, by decide⟩
  · simp only [formatNat, h0, if_false, List.mem_reverse, List.mem_map] at hmem
    obtain ⟨d, hd, hdc⟩ := hmem
    rw [← hdc]
    exact digitChar_ne_sign d (natDigitsF_lt_ten n n d hd)

theorem string_mk_data (l : List Char) : (String.mk l).data = l := rfl

theorem parseInt64_formatInt (i : Int) (hmin : int64Min ≤ i)
    (hmax : i ≤ int64Max) : parseInt64 (formatInt i) = some i := by
  by_cases hneg : i < 0
  · have habs : i.natAbs ≠ 0 := by omega
    simp only [formatInt, hneg, if_true]
    rcases hl : formatNat i.natAbs with _ | ⟨c, cs⟩
    · exact absurd hl (formatNat_ne_nil _)
    · simp only [parseInt64, string_mk_data, hl, if_true]
      have hdec : decDigitsAux 0 (c :: cs) = some i.natAbs := by
        rw [← hl]; exact decDigitsAux_formatNat _
      rw [hdec]
      have hv : -((i.natAbs : Nat) : Int) = i := by omega
      simp only [hv]
      rw [if_pos ⟨hmin, hmax⟩]
  · have hpos : 0 ≤ i := by omega
    simp only [formatInt, hneg, if_false]
    rcases hl : formatNat i.toNat with _ | ⟨c, cs⟩
    · exact absurd hl (formatNat_ne_nil _)
    · obtain ⟨hcm, hcp⟩ := formatNat_head_digit i.toNat c cs hl
      simp only [parseInt64, string_mk_data, hl, hcm, hcp, if_false]
      have hdec : decDigitsAux 0 (c :: cs) = some i.toNat := by
        rw [← hl]; exact decDigitsAux_formatNat _
      rw [hdec]
      have hv : ((i.toNat : Nat) : Int) = i := Int.toNat_of_nonneg hpos
      simp only [hv]
      rw [if_pos ⟨hmin, hmax⟩]
      simp

theorem formatInt_ne_empty (i : Int) : formatInt i ≠ "" := by
  intro hcon
  have hdata : (formatInt i).data = [] := by rw [hcon]
  by_cases hneg : i < 0
  · simp only [formatInt, hneg, if_true, string_mk_data] at hdata
    exact List.cons_ne_nil _ _ hdata
  · simp only [formatInt, hneg, if_false, string_mk_data] at hdata
    exact formatNat_ne_nil _ hdata

/-! ## Version targeting in Download, Remove, Attrs -/

/-- The object a driver operation addresses at the backend: the live
(current) version, or a pinned generation. -/
inductive Target where
  | live
  | generation (gen : Int)
deriving DecidableEq

structure DownloadData where
  object : String
  version : String

structure RemoveData where
  object : String
  version : String

structure AttrsData where
  object : String
  version : String

/-- The generation targeting of `bucket.Download` (lines 50-59): a
non-empty version string that `strconv.ParseInt` accepts pins that
generation; otherwise the handle stays on the live version. -/
def downloadTarget (data : DownloadData) : Target :=
  if data.version ≠ "" then
    match parseInt64 data.version with
    | some gen => .generation gen
    | none => .live
  else .live

/-- The generation targeting of `bucket.Remove` (lines 155-166), same
pattern as Download. -/
def removeTarget (data : RemoveData) : Target :=
  if data.version ≠ "" then
    match parseInt64 data.version with
    | some gen => .generation gen
    | none => .live
  else .live

/-- The generation targeting of `bucket.Attrs` (lines 168-179), same
pattern as Download. -/
def attrsTarget (data : AttrsData) : Target :=
  if data.version ≠ "" then
    match parseInt64 data.version with
    | some gen => .generation gen
    | none => .live
  else .live

/-- Claim C3: for Download, Remove, and Attrs, a non-empty version string
that fails to parse as the backend's integer generation is silently
dropped (the operation targets the live version); a string that parses
pins exactly that generation. -/
theorem version_parse_fallback (o v : String) (hv : v ≠ "") :
    (parseInt64 v = none →
      downloadTarget ⟨o, v⟩ = .live ∧ removeTarget ⟨o, v⟩ = .live ∧
        attrsTarget ⟨o, v⟩ = .live) ∧
    (∀ g, parseInt64 v = some g →
      downloadTarget ⟨o, v⟩ = .generation g ∧
        removeTarget ⟨o, v⟩ = .generation g ∧
        attrsTarget ⟨o, v⟩ = .generation g) := by
  constructor
  · intro hp
    refine ⟨?_, ?_, ?_⟩ <;> simp [downloadTarget, removeTarget, attrsTarget, hv, hp]
  · intro g hp
    refine ⟨?_, ?_, ?_⟩ <;> simp [downloadTarget, removeTarget, attrsTarget, hv, hp]

/-- Concrete instances of claim C3: version "12x34" does not parse and is
dropped; version "123" parses and pins generation 123. -/
theorem version_parse_fallback_witness :
    (downloadTarget ⟨"obj", "12x34"⟩ = .live ∧
      removeTarget ⟨"obj", "12x34"⟩ = .live ∧
      attrsTarget ⟨"obj", "12x34"⟩ = .live) ∧
    (downloadTarget ⟨"obj", "123"⟩ = .generation 123 ∧
      removeTarget ⟨"obj", "123"⟩ = .generation 123 ∧
      attrsTarget ⟨"obj", "123"⟩ = .generation 123) :=
  ⟨(version_parse_fallback "obj" "12x34" (by decide)).1 (by decide),
   (version_parse_fallback "obj" "123" (by decide)).2 123 (by decide)⟩

/-! ## Object attributes -/

/-- The fields of the backend SDK's `storage.ObjectAttrs` that the driver
reads; `generation` is the backend's `int64` generation number. -/
structure BackendObjectAttrs where
  name : String
  generation : Int
  contentType : String
  size : Int
  etag : String
deriving DecidableEq

/-- `types.ObjectAttrs` as produced by the driver. -/
structure ObjectAttrs where
  object : String
  version : String
  contentType : String
  size : Int
  etag : String
deriving DecidableEq

/-- `mapAttrs` (lines 104-115): nil maps to nil; otherwise the version
token is `strconv.FormatInt(attrs.Generation, 10)` and the remaining
fields are copied. -/
def mapAttrs : Option BackendObjectAttrs → Option ObjectAttrs
  | none => none
  | some a =>
    some { object := a.name, version := formatInt a.generation,
           contentType := a.contentType, size := a.size, etag := a.etag }

/-- Claim C10: every ObjectAttrs the driver produces carries the decimal
string of the backend generation as its Version, and feeding that Version
into WithVersion on a later Download, Remove, or Attrs parses successfully
and pins exactly that generation — the lenient-parse fallback is never
taken for a driver-produced version. The `int64` bounds hold for every Go
`attrs.Generation` by its type. -/
theorem driver_version_round_trip (a : BackendObjectAttrs) (o : String)
    (out : ObjectAttrs) (hout : mapAttrs (some a) = some out)
    (hmin : int64Min ≤ a.generation) (hmax : a.generation ≤ int64Max) :
    out.version = formatInt a.generation ∧
    out.version ≠ "" ∧
    parseInt64 out.version = some a.generation ∧
    downloadTarget ⟨o, out.version⟩ = .generation a.generation ∧
    removeTarget ⟨o, out.version⟩ = .generation a.generation ∧
    attrsTarget ⟨o, out.version⟩ = .generation a.generation := by
  have hv : out.version = formatInt a.generation := by
    have : out = { object := a.name, version := formatInt a.generation,
                   contentType := a.contentType, size := a.size,
                   etag := a.etag } := by
      injection hout with h
      exact h.symm
    rw [this]
  have hne : out.version ≠ "" := by rw [hv]; exact formatInt_ne_empty _
  have hp : parseInt64 out.version = some a.generation := by
    rw [hv]; exact parseInt64_formatInt _ hmin hmax
  refine ⟨hv, hne, hp, ?_, ?_, ?_⟩ <;>
    simp [downloadTarget, removeTarget, attrsTarget, hne, hp]

/-- Concrete instance of claim C10: the attrs for generation 42 carry
version "42", which parses back and pins generation 42 everywhere. -/
theorem driver_version_round_trip_witness :
    mapAttrs (some ⟨"obj", 42, "text/plain", 3, "etag1"⟩) =
      some ⟨"obj", "42", "text/plain", 3, "etag1"⟩ ∧
    parseInt64 "42" = some 42 ∧
    downloadTarget ⟨"obj", "42"⟩ = .generation 42 ∧
    removeTarget ⟨"obj", "42"⟩ = .generation 42 ∧
    attrsTarget ⟨"obj", "42"⟩ = .generation 42 := by
  have hmap : mapAttrs (some ⟨"obj", 42, "text/plain", 3, "etag1"⟩) =
      some ⟨"obj", "42", "text/plain", 3, "etag1"⟩ := by decide
  have h := driver_version_round_trip ⟨"obj", 42, "text/plain", 3, "etag1"⟩
    "obj" ⟨"obj", "42", "text/plain", 3, "etag1"⟩ hmap (by decide) (by decide)
  exact ⟨hmap, h.2.2.1, h.2.2.2.1, h.2.2.2.2.1, h.2.2.2.2.2⟩

/-! ## bucket.List -/

/-- `types.ListEntry` as produced by `mapListEntry` (lines 117-123). -/
structure ListEntry where
  object : String
  size : Int
  etag : String
deriving DecidableEq

def mapListEntry (a : BackendObjectAttrs) : ListEntry :=
  { object := a.name, size := a.size, etag := a.etag }

/-- One non-Done result of the backend object iterator
(`handle.Objects(ctx, Query).Next()`): either the attrs of the next
matching object, or a mid-enumeration backend error. The iterator itself
is modelled as the list of such results it will produce before returning
`iterator.Done`. -/
inductive BackendItem where
  | entry (attrs : BackendObjectAttrs)
  | failure (e : GoError)
deriving DecidableEq

/-- The limit test on line 138: `data.Limit != nil && n >= *data.Limit`. -/
def limitHit : Option Int → Int → Bool
  | none, _ => false
  | some l, n => l ≤ n

/-- What one loop iteration yields (lines 143-148): a mapped entry when the
iterator returned attrs (error nil, so `mapErr` yields nil), or a nil entry
with the mapped error. -/
def yieldOf : BackendItem → Option ListEntry × Option StorageError
  | .entry a => (some (mapListEntry a), mapErr none)
  | .failure e => (none, mapErr (some e))

/-- The yield loop of `bucket.List` (lines 130-152), for a consumer that
never stops early, returning the yielded pairs in order: fetch `Next`;
stop on Done (end of stream); stop if the limit test fires; otherwise
count the element and yield it. -/
def listLoop (limit : Option Int) : List BackendItem → Int →
    List (Option ListEntry × Option StorageError)
  | [], _ => []
  | item :: rest, n =>
    if limitHit limit n then []
    else yieldOf item :: listLoop limit rest (n + 1)

/-- `bucket.List` (lines 125-153) over a backend stream: the counter `n`
starts at zero. -/
def bucketList (stream : List BackendItem) (limit : Option Int) :
    List (Option ListEntry × Option StorageError) :=
  listLoop limit stream 0

/-- How many calls to the backend iterator's `Next` the loop makes before
returning: one per yielded element, plus the final call on which it
observes Done or (already having fetched a result) notices the limit. -/
def listNexts (limit : Option Int) : List BackendItem → Int → Nat
  | [], _ => 1
  | _ :: rest, n =>
    if limitHit limit n then 1
    else 1 + listNexts limit rest (n + 1)

/-- Number of non-error entries among the yielded pairs. -/
def nonErrorCount (ys : List (Option ListEntry × Option StorageError)) : Nat :=
  (ys.filter (fun y => y.2.isNone)).length

theorem listLoop_take (limit : Int) (stream : List BackendItem) :
    ∀ n : Int, listLoop (some limit) stream n =
      ((stream.take (limit - n).toNat).map yieldOf) := by
  induction stream with
  | nil => intro n; simp [listLoop]
  | cons item rest ih =>
    intro n
    by_cases h : limit ≤ n
    · have h0 : (limit - n).toNat = 0 := by omega
      simp [listLoop, limitHit, h, h0]
    · have h1 : (limit - n).toNat = (limit - (n + 1)).toNat + 1 := by omega
      simp only [listLoop, limitHit, h1, List.take_succ_cons, List.map_cons,
        decide_eq_true_eq, if_neg h]
      rw [ih (n + 1)]

theorem listNexts_min (limit : Int) (stream : List BackendItem) :
    ∀ n : Int, listNexts (some limit) stream n =
      min (limit - n).toNat stream.length + 1 := by
  induction stream with
  | nil => intro n; simp [listNexts]
  | cons item rest ih =>
    intro n
    by_cases h : limit ≤ n
    · have h0 : (limit - n).toNat = 0 := by omega
      simp [listNexts, limitHit, h, h0]
    · have h1 : (limit - n).toNat = (limit - (n + 1)).toNat + 1 := by omega
      simp only [listNexts, limitHit, decide_eq_true_eq, if_neg h,
        List.length_cons, ih (n + 1), h1]
      omega

theorem listLoop_none (stream : List BackendItem) :
    ∀ n : Int, listLoop none stream n = stream.map yieldOf := by
  induction stream with
  | nil => intro n; rfl
  | cons item rest ih =>
    intro n
    simp [listLoop, limitHit, ih (n + 1)]

/-- Claim C1 counterexample: with a backend stream holding one
mid-enumeration error followed by one matching object, and limit 1, the
sequence yields only the error element and stops — zero non-error entries
are yielded, not the claimed one, because the error element consumed the
limit. -/
theorem list_limit_counterexample :
    bucketList [.failure ⟨false, none, none, 0⟩,
        .entry ⟨"a", 1, "text/plain", 5, "e1"⟩] (some 1) =
      [(none, some (.native ⟨false, none, none, 0⟩))] ∧
    nonErrorCount (bucketList [.failure ⟨false, none, none, 0⟩,
        .entry ⟨"a", 1, "text/plain", 5, "e1"⟩] (some 1)) = 0 ∧
    (0 : Nat) ≠ 1 := by
  refine ⟨by decide, by decide, by decide⟩

/-- Claim C1 amended: with a limit N the sequence yields exactly the first
min(N, M) backend elements — error elements count toward the limit just
like entries — and then stops; with no limit every backend element is
yielded. Once the loop stops it makes no further `Next` calls: the total
number of `Next` calls is min(N, M) plus the single fetch on which the
loop notices Done or the limit, so at most one backend fetch follows the
limit being reached. In an error-free stream of M matching objects this
yields exactly min(N, M) entries, and all M of them when M < N. -/
theorem list_limit_amended (stream : List BackendItem) (limit : Int) :
    bucketList stream (some limit) = (stream.take limit.toNat).map yieldOf ∧
    (bucketList stream (some limit)).length = min limit.toNat stream.length ∧
    listNexts (some limit) stream 0 = min limit.toNat stream.length + 1 ∧
    bucketList stream none = stream.map yieldOf := by
  have h0 : bucketList stream (some limit) =
      (stream.take limit.toNat).map yieldOf := by
    have h := listLoop_take limit stream 0
    simpa [bucketList] using h
  refine ⟨h0, ?_, ?_, ?_⟩
  · rw [h0]
    simp [List.length_take]
  · have h := listNexts_min limit stream 0
    simpa using h
  · exact listLoop_none stream 0

/-! ## Options system (runtimes/go/storage/objects/options.go) -/

/-- `Preconditions` (options.go lines 59-63). -/
structure Preconditions where
  notExists : Bool
deriving DecidableEq

/-- `UploadAttrs` (options.go lines 77-81). -/
structure UploadAttrs where
  contentType : String
deriving DecidableEq

/-- `downloadOptions` (options.go lines 41-44). -/
structure downloadOptions where
  version : String
deriving DecidableEq

/-- `uploadOptions` (options.go lines 103-106); `attrs` holds the same
single content-type field after the `types.UploadAttrs` conversion. -/
structure uploadOptions where
  attrs : UploadAttrs
  pre : Preconditions
deriving DecidableEq

/-- The download options recognized by the options file: only
`WithVersion`. -/
inductive DownloadOption where
  | withVersion (version : String)
deriving DecidableEq

/-- The upload options recognized by the options file: `WithPreconditions`
and `WithUploadAttrs`. -/
inductive UploadOption where
  | withPreconditions (pre : Preconditions)
  | withUploadAttrs (attrs : UploadAttrs)
deriving DecidableEq

/-- `withVersionOption.applyDownload` (options.go line 36): writes the
version field. -/
def applyDownload (opts : downloadOptions) : DownloadOption → downloadOptions
  | .withVersion v => { opts with version := v }

/-- `applyUpload` of the two upload option types (options.go lines 73-75
and 97-101): each writes its own field. -/
def applyUpload (opts : uploadOptions) : UploadOption → uploadOptions
  | .withPreconditions p => { opts with pre := p }
  | .withUploadAttrs a => { opts with attrs := { contentType := a.contentType } }

/-- A fresh default-valued download options struct (Go zero value). -/
def defaultDownloadOptions : downloadOptions := { version := "" }

/-- A fresh default-valued upload options struct (Go zero value). -/
def defaultUploadOptions : uploadOptions :=
  { attrs := { contentType := "" }, pre := { notExists := false } }

/-- Applying a list of download options, left to right. -/
def foldDownloadOptions (os : List DownloadOption) : downloadOptions :=
  os.foldl applyDownload defaultDownloadOptions

/-- Applying a list of upload options, left to right. -/
def foldUploadOptions (os : List UploadOption) : uploadOptions :=
  os.foldl applyUpload defaultUploadOptions

/-- Claim C7: option application is a strict left fold — for two options
writing the same field the later one wins (any trailing WithVersion
determines the download version, and likewise for upload preconditions),
while options writing different fields commute and leave each other's
fields untouched. -/
theorem options_left_fold (ds : List DownloadOption) (v1 v2 : String)
    (us : List UploadOption) (s : uploadOptions) (p : Preconditions)
    (a : UploadAttrs) :
    foldDownloadOptions (ds ++ [.withVersion v1, .withVersion v2]) =
      { version := v2 } ∧
    (foldUploadOptions (us ++ [.withPreconditions p])).pre = p ∧
    (foldUploadOptions (us ++ [.withUploadAttrs a])).attrs =
      { contentType := a.contentType } ∧
    applyUpload (applyUpload s (.withPreconditions p)) (.withUploadAttrs a) =
      applyUpload (applyUpload s (.withUploadAttrs a)) (.withPreconditions p) ∧
    (applyUpload s (.withPreconditions p)).attrs = s.attrs ∧
    (applyUpload s (.withUploadAttrs a)).pre = s.pre := by
  refine ⟨?_, ?_, ?_, rfl, rfl, rfl⟩
  · simp [foldDownloadOptions, List.foldl_append, applyDownload]
  · simp [foldUploadOptions, List.foldl_append, applyUpload]
  · simp [foldUploadOptions, List.foldl_append, applyUpload]

/-! ## bucket.Upload, uploader.Write, uploader.Complete -/

/-- `storage.Conditions` as the driver constructs it (line 66-68): only
the `DoesNotExist` field is used. -/
structure Conditions where
  doesNotExist : Bool
deriving DecidableEq

/-- The state of the `storage.Writer` the driver creates: the object the
handle addresses, the conditions attached to the handle (`none` when
`obj.If` was never called), the content type set on the writer, and the
bytes buffered by Write calls so far. -/
structure WriterState where
  object : String
  conds : Option Conditions
  contentType : String
  buffered : List Nat
deriving DecidableEq

/-- The fields of `types.UploadData` the driver reads: object name,
`data.Pre.NotExists`, and `data.Attrs.ContentType`. -/
structure UploadData where
  object : String
  preNotExists : Bool
  contentType : String
deriving DecidableEq

/-- `bucket.Upload` (lines 61-79): the object handle is conditioned on
`DoesNotExist` exactly when `data.Pre.NotExists` is set, the writer is
created with the given content type and an empty buffer, and the uploader
(always freshly allocated, never nil) is returned with a nil error. -/
def bucketUpload (data : UploadData) : Option WriterState × Option StorageError :=
  let conds : Option Conditions :=
    if data.preNotExists then some { doesNotExist := true } else none
  (some { object := data.object, conds := conds,
          contentType := data.contentType, buffered := [] }, none)

/-- `uploader.Write` (lines 86-89), given the count and error the backend
writer reported for this chunk: the count is passed through and the error
is normalized by `mapErr`. -/
def uploaderWrite (backendN : Int) (backendErr : Option GoError) :
    Int × Option StorageError :=
  (backendN, mapErr backendErr)

/-- A bucket's backend contents: object name to current generation. -/
abbrev BackendStore := List (String × Int)

def objectExists (st : BackendStore) (name : String) : Bool :=
  st.any (fun p => p.1 = name)

/-- Result of the backend finishing a conditional write: the store after
the commit, the error `Writer.Close` reports, and the attrs
`Writer.Attrs()` exposes afterwards. -/
structure CommitOutcome where
  store : BackendStore
  closeErr : Option GoError
  attrs : Option BackendObjectAttrs
deriving DecidableEq

/-- The `googleapi.Error` GCS reports for a violated write precondition:
HTTP 412, not an object-not-exist error. -/
def err412 : GoError :=
  { isObjectNotExist := false, googleapiCode := some statusPreconditionFailed,
    grpcStatus := none, tag := 412000 }

/-- Modelled from the spec: the backend's atomic commit of a conditional
write (the GCS service and SDK, external to this repository). Per the
spec, a `DoesNotExist` condition is evaluated atomically by the backend at
commit: if the object already exists, nothing is committed and the close
reports the precondition violation (HTTP 412); otherwise the buffered
bytes are committed as a new generation `newGen` assigned by the backend,
whose attributes the writer then exposes. -/
def backendClose (st : BackendStore) (w : WriterState) (newGen : Int) :
    CommitOutcome :=
  let condFails : Bool :=
    match w.conds with
    | some c => c.doesNotExist && objectExists st w.object
    | none => false
  if condFails then
    { store := st, closeErr := some err412, attrs := none }
  else
    { store := (w.object, newGen) :: st.filter (fun p => p.1 != w.object),
      closeErr := none,
      attrs := some { name := w.object, generation := newGen,
                      contentType := w.contentType,
                      size := (w.buffered.length : Int), etag := "" } }

/-- `uploader.Complete` (lines 91-98): close the writer; a non-nil close
error is returned through `mapErr` with nil attrs; otherwise the writer's
attrs are returned through `mapAttrs` with a nil error. The resulting
backend store is carried alongside the driver's two return values. -/
def uploaderComplete (st : BackendStore) (w : WriterState) (newGen : Int) :
    BackendStore × Option ObjectAttrs × Option StorageError :=
  let out := backendClose st w newGen
  match out.closeErr with
  | some e => (out.store, none, mapErr (some e))
  | none => (out.store, mapAttrs out.attrs, none)

/-- Claim C4: with `Preconditions.NotExists` set, Upload attaches the
atomic does-not-exist condition to the writer before any bytes are
written (the returned writer already carries the condition and has an
empty buffer); Complete on an already-existing object returns
PreconditionFailed with no attrs and an unchanged store, regardless of the
bytes written meanwhile; Complete on success returns ObjectAttrs whose
version is the backend-assigned generation token. -/
theorem upload_notexists_precondition (data : UploadData) (st : BackendStore)
    (w : WriterState) (newGen : Int) (bytes : List Nat)
    (hpre : data.preNotExists = true)
    (hw : (bucketUpload data).1 = some w) :
    w.conds = some { doesNotExist := true } ∧ w.buffered = [] ∧
    (objectExists st data.object = true →
      uploaderComplete st { w with buffered := bytes } newGen =
        (st, none, some .preconditionFailed)) ∧
    (objectExists st data.object = false →
      (uploaderComplete st { w with buffered := bytes } newGen).2.1 =
        some { object := data.object, version := formatInt newGen,
               contentType := data.contentType,
               size := (bytes.length : Int), etag := "" }) := by
  have hwval : w = WriterState.mk data.object (some (Conditions.mk true))
      data.contentType [] := by
    simp only [bucketUpload, hpre, if_true, Option.some.injEq] at hw
    exact hw.symm
  subst hwval
  refine ⟨rfl, rfl, ?_, ?_⟩
  · intro hex
    simp [uploaderComplete, backendClose, hex, mapErr, err412,
      statusPreconditionFailed]
  · intro hnex
    simp [uploaderComplete, backendClose, hnex, mapAttrs]

/-- Concrete instances of claim C4: completing a conditioned upload over
an existing object "o" fails with PreconditionFailed and leaves the store
unchanged; over a store without "o" it succeeds with version token "7". -/
theorem upload_notexists_precondition_witness :
    uploaderComplete [("o", 1)]
        { object := "o", conds := some { doesNotExist := true },
          contentType := "ct", buffered := [1, 2] } 7 =
      ([("o", 1)], none, some .preconditionFailed) ∧
    (uploaderComplete []
        { object := "o", conds := some { doesNotExist := true },
          contentType := "ct", buffered := [1, 2] } 7).2.1 =
      some { object := "o", version := "7", contentType := "ct",
             size := 2, etag := "" } := by
  constructor
  · exact (upload_notexists_precondition ⟨"o", true, "ct"⟩ [("o", 1)]
      { object := "o", conds := some { doesNotExist := true },
        contentType := "ct", buffered := [] } 7 [1, 2] rfl rfl).2.2.1
      (by decide)
  · have h := (upload_notexists_precondition ⟨"o", true, "ct"⟩ []
      { object := "o", conds := some { doesNotExist := true },
        contentType := "ct", buffered := [] } 7 [1, 2] rfl rfl).2.2.2
      (by decide)
    rw [h]
    decide

/-- Claim C9: Upload itself always returns a non-nil uploader and a nil
error; Write and Complete are where backend failures surface, normalized
by `mapErr` (Write passes the backend error through `mapErr`, and Complete
does so for the close error by definition of `uploaderComplete`). -/
theorem upload_never_errors (data : UploadData) (bn : Int)
    (be : Option GoError) :
    (bucketUpload data).1.isSome = true ∧
    (bucketUpload data).2 = none ∧
    uploaderWrite bn be = (bn, mapErr be) :=
  ⟨rfl, rfl, rfl⟩

/-! ## Manager and client caching -/

/-- The fields of `config.BucketProvider.GCS` the driver reads when
constructing a client (lines 186-192). -/
structure GCSConfig where
  anonymous : Bool
  endpoint : String
deriving DecidableEq

/-- A `*config.BucketProvider`: `id` models the pointer identity the
client cache is keyed by; `gcs` the pointed-to contents. Distinct pointers
may carry equal contents. -/
structure BucketProvider where
  id : Nat
  gcs : GCSConfig
deriving DecidableEq

/-- The Manager's mutable state: the `clients` map keyed by provider
pointer identity, plus a count of physical clients constructed so far,
which also serves as the next fresh client identity. -/
structure ManagerState where
  clients : List (Nat × Nat)
  constructed : Nat
deriving DecidableEq

/-- `NewManager` (lines 28-30): an empty client map. -/
def newManager : ManagerState := { clients := [], constructed := 0 }

/-- Reading `mgr.clients[prov]` (line 182). -/
def lookupClient (st : ManagerState) (pid : Nat) : Option Nat :=
  (st.clients.find? (fun p => p.1 == pid)).map Prod.snd

/-- Result of `clientForProvider`: the client and updated state, or a
process abort — the function's Go signature has no error return. -/
inductive ClientResult where
  | ok (client : Nat) (st : ManagerState)
  | panicked (msg : String)
deriving DecidableEq

/-- `Manager.clientForProvider` (lines 181-201): return the cached client
for this provider pointer when present; otherwise construct a client
(`fails` models whether `storage.NewClient` errors for the options built
from this provider), panic on construction failure, and cache the new
client under the provider's pointer identity. -/
def clientForProvider (fails : BucketProvider → Bool) (st : ManagerState)
    (prov : BucketProvider) : ClientResult :=
  match lookupClient st prov.id with
  | some client => .ok client st
  | none =>
    if fails prov then
      .panicked "failed to create object storage client"
    else
      .ok st.constructed
        { clients := (prov.id, st.constructed) :: st.clients,
          constructed := st.constructed + 1 }

/-- The bucket facade `Manager.NewBucket` returns (lines 44-48): the
resolved client and the handle for the configured cloud bucket name. -/
structure Bucket where
  client : Nat
  cloudName : String
deriving DecidableEq

/-- `Manager.NewBucket` (lines 44-48); none models the propagated panic
when client construction fails. -/
def newBucket (fails : BucketProvider → Bool) (st : ManagerState)
    (prov : BucketProvider) (cloudName : String) :
    Option (Bucket × ManagerState) :=
  match clientForProvider fails st prov with
  | .ok client st2 => some ({ client := client, cloudName := cloudName }, st2)
  | .panicked _ => none

/-- Claim C5: two sequential NewBucket calls on one Manager. With the same
provider pointer, the second reuses the first's client and only one client
is ever constructed; with distinct pointers — no assumption relates their
contents, which may be equal — each gets an independently constructed
client. -/
theorem client_cache_by_identity (fails : BucketProvider → Bool)
    (p1 p2 : BucketProvider) (n1 n2 : String)
    (h1 : fails p1 = false) (h2 : fails p2 = false) :
    (p1.id = p2.id →
      ∃ b1 b2 st1 st2,
        newBucket fails newManager p1 n1 = some (b1, st1) ∧
        newBucket fails st1 p2 n2 = some (b2, st2) ∧
        b1.client = b2.client ∧ st2.constructed = 1) ∧
    (p1.id ≠ p2.id →
      ∃ b1 b2 st1 st2,
        newBucket fails newManager p1 n1 = some (b1, st1) ∧
        newBucket fails st1 p2 n2 = some (b2, st2) ∧
        b1.client ≠ b2.client ∧ st2.constructed = 2) := by
  have hfirst : newBucket fails newManager p1 n1 =
      some (⟨0, n1⟩, ⟨[(p1.id, 0)], 1⟩) := by
    simp [newBucket, clientForProvider, lookupClient, newManager,
      List.find?, h1]
  constructor
  · intro heq
    have hbeq : (p1.id == p2.id) = true := beq_iff_eq.mpr heq
    have hhit : lookupClient ⟨[(p1.id, 0)], 1⟩ p2.id = some 0 := by
      simp [lookupClient, List.find?, hbeq]
    refine ⟨⟨0, n1⟩, ⟨0, n2⟩, ⟨[(p1.id, 0)], 1⟩, ⟨[(p1.id, 0)], 1⟩,
      hfirst, ?_, rfl, rfl⟩
    simp [newBucket, clientForProvider, hhit]
  · intro hne
    have hbeq : (p1.id == p2.id) = false := beq_eq_false_iff_ne.mpr hne
    have hmiss2 : lookupClient ⟨[(p1.id, 0)], 1⟩ p2.id = none := by
      simp [lookupClient, List.find?, hbeq]
    refine ⟨⟨0, n1⟩, ⟨1, n2⟩, ⟨[(p1.id, 0)], 1⟩,
      ⟨[(p2.id, 1), (p1.id, 0)], 2⟩, hfirst, ?_, Nat.zero_ne_one, rfl⟩
    simp [newBucket, clientForProvider, hmiss2, h2]

/-- Concrete instances of claim C5: providers with pointer identities 0
and 1 but equal contents get distinct clients; reusing pointer identity 0
shares one client. -/
theorem client_cache_by_identity_witness :
    (∃ b1 b2 st1 st2,
      newBucket (fun _ => false) newManager ⟨0, ⟨false, "e"⟩⟩ "n1" =
        some (b1, st1) ∧
      newBucket (fun _ => false) st1 ⟨0, ⟨false, "e"⟩⟩ "n2" =
        some (b2, st2) ∧
      b1.client = b2.client ∧ st2.constructed = 1) ∧
    (∃ b1 b2 st1 st2,
      newBucket (fun _ => false) newManager ⟨0, ⟨false, "e"⟩⟩ "n1" =
        some (b1, st1) ∧
      newBucket (fun _ => false) st1 ⟨1, ⟨false, "e"⟩⟩ "n2" =
        some (b2, st2) ∧
      b1.client ≠ b2.client ∧ st2.constructed = 2) :=
  ⟨(client_cache_by_identity (fun _ => false) ⟨0, ⟨false, "e"⟩⟩
      ⟨0, ⟨false, "e"⟩⟩ "n1" "n2" rfl rfl).1 rfl,
   (client_cache_by_identity (fun _ => false) ⟨0, ⟨false, "e"⟩⟩
      ⟨1, ⟨false, "e"⟩⟩ "n1" "n2" rfl rfl).2 (by decide)⟩

/-- Claim C8: when client construction fails for a provider whose pointer
is not in the cache, `clientForProvider` panics with the source's message,
and NewBucket aborts rather than returning a bucket; the Go signatures
offer no error path at all. -/
theorem client_construction_failure_panics (fails : BucketProvider → Bool)
    (st : ManagerState) (prov : BucketProvider) (cloudName : String)
    (hmiss : lookupClient st prov.id = none) (hfail : fails prov = true) :
    clientForProvider fails st prov =
      .panicked "failed to create object storage client" ∧
    newBucket fails st prov cloudName = none := by
  constructor
  · simp [clientForProvider, hmiss, hfail]
  · simp [newBucket, clientForProvider, hmiss, hfail]

/-- Concrete instance of claim C8: a fresh Manager and an always-failing
client constructor panic on the first NewBucket. -/
theorem client_construction_failure_panics_witness :
    clientForProvider (fun _ => true) newManager ⟨0, ⟨true, "e"⟩⟩ =
      .panicked "failed to create object storage client" ∧
    newBucket (fun _ => true) newManager ⟨0, ⟨true, "e"⟩⟩ "n" = none :=
  client_construction_failure_panics (fun _ => true) newManager
    ⟨0, ⟨true, "e"⟩⟩ "n" rfl rfl

/-! ## Concurrent NewBucket calls -/

/-- The construct-and-insert half of a `clientForProvider` cache miss
(lines 194-199), taken on its own: `Manager` holds no mutex, so nothing in
the code makes the map read on line 182 and this insert one atomic step. -/
def cacheInsertFresh (st : ManagerState) (prov : BucketProvider) :
    ManagerState × Nat :=
  ({ clients := (prov.id, st.constructed) :: st.clients,
     constructed := st.constructed + 1 }, st.constructed)

/-- Two concurrent `clientForProvider` calls for the same provider on a
fresh Manager, under the interleaving in which both map reads execute
before either insert — an interleaving the unsynchronized code permits.
Both reads miss the cache, so both threads construct and insert a client;
the final state and the client each call returns are given. -/
def racedTwoCalls (prov : BucketProvider) : ManagerState × Nat × Nat :=
  match lookupClient newManager prov.id, lookupClient newManager prov.id with
  | none, none =>
    let a := cacheInsertFresh newManager prov
    let b := cacheInsertFresh a.1 prov
    (b.1, a.2, b.2)
  | some c, _ => (newManager, c, c)
  | none, some c => (newManager, c, c)

/-- Claim C6 fails on the code: with no lock around the `clients` map,
the lookup-lookup-insert-insert interleaving of two concurrent NewBucket
calls for one provider constructs two distinct physical clients instead
of one (and the doubled insert is itself an unsynchronized concurrent
write to a plain Go map). -/
theorem concurrent_newbucket_races :
    (racedTwoCalls ⟨0, ⟨false, ""⟩⟩).1.constructed = 2 ∧
    (racedTwoCalls ⟨0, ⟨false, ""⟩⟩).2.1 ≠ (racedTwoCalls ⟨0, ⟨false, ""⟩⟩).2.2 := by
  decide
